import Mathlib

/-!
Verification of the corotational frame transformation `SouzaFrameTransf`
(file `SRC/coordTransformation/Frame/SouzaFrameTransf.tpp`, instantiated at
`nn = 2`, `ndf = 6`).

Machine floating-point numbers are embedded as real numbers; the helper
classes `Versor` (quaternion), `CrisfieldIsometry`, the rotation logarithm
`LogC90` and `FrameTransform::Orient`, whose sources are not part of the
repository snapshot, are modelled from the specification (sections 4.1 and
4.2 of the spec) and are marked `Modelled from the spec:` below.
-/

namespace OpenSees

noncomputable section

/-- A 3-component vector, as in the source's `Vector3D`. -/
abbrev Vec3 := Fin 3 → ℝ

/-- A 3 by 3 matrix, as in the source's `Matrix3D`. -/
abbrev Matrix3 := Matrix (Fin 3) (Fin 3) ℝ

/-- Sum of squared components of a 3-vector. -/
def sq3 (v : Vec3) : ℝ := v 0 ^ 2 + v 1 ^ 2 + v 2 ^ 2

/-- Euclidean norm of a 3-vector, as computed by `Vector3D::norm()`. -/
def norm3 (v : Vec3) : ℝ := Real.sqrt (sq3 v)

/-- Dot product of 3-vectors, as in `Vector3D::dot`. -/
def dot3 (a b : Vec3) : ℝ := a 0 * b 0 + a 1 * b 1 + a 2 * b 2

/-- Cross product of 3-vectors. -/
def cross3 (a b : Vec3) : Vec3 :=
  ![a 1 * b 2 - a 2 * b 1, a 2 * b 0 - a 0 * b 2, a 0 * b 1 - a 1 * b 0]

/-- Skew-symmetric (hat) matrix of a 3-vector. -/
def skew3 (v : Vec3) : Matrix3 :=
  Matrix.of ![![0, -v 2, v 1], ![v 2, 0, -v 0], ![-v 1, v 0, 0]]

/-- The rotation matrix of a quaternion (the source's `MatrixFromVersor`),
in the homogeneous (conjugation) form; for a unit quaternion this is the
usual rotation matrix. -/
def MatrixFromVersor (q : Quaternion ℝ) : Matrix3 :=
  Matrix.of
    ![![q.re ^ 2 + q.imI ^ 2 - q.imJ ^ 2 - q.imK ^ 2,
        2 * (q.imI * q.imJ - q.re * q.imK),
        2 * (q.imI * q.imK + q.re * q.imJ)],
      ![2 * (q.imI * q.imJ + q.re * q.imK),
        q.re ^ 2 - q.imI ^ 2 + q.imJ ^ 2 - q.imK ^ 2,
        2 * (q.imJ * q.imK - q.re * q.imI)],
      ![2 * (q.imI * q.imK - q.re * q.imJ),
        2 * (q.imJ * q.imK + q.re * q.imI),
        q.re ^ 2 - q.imI ^ 2 - q.imJ ^ 2 + q.imK ^ 2]]

namespace Versor

/-- Modelled from the spec: `Versor::from_vector` builds the unit quaternion
for an incremental rotation vector (axis times angle encoding, angle equal
to the norm); returns the identity quaternion at the zero vector. -/
def from_vector (v : Vec3) : Quaternion ℝ :=
  let n := norm3 v
  ⟨Real.cos (n / 2), Real.sin (n / 2) / n * v 0,
   Real.sin (n / 2) / n * v 1, Real.sin (n / 2) / n * v 2⟩

/-- Modelled from the spec: `Versor::from_matrix` extracts a unit quaternion
from a rotation matrix (valid for trace greater than -1; the contract
requires an orthogonal input with determinant +1). -/
def from_matrix (R : Matrix3) : Quaternion ℝ :=
  let w := Real.sqrt (1 + R 0 0 + R 1 1 + R 2 2) / 2
  ⟨w, (R 2 1 - R 1 2) / (4 * w), (R 0 2 - R 2 0) / (4 * w),
      (R 1 0 - R 0 1) / (4 * w)⟩

end Versor

/-- Modelled from the spec: the SO(3) logarithm `LogC90` (Crisfield 1990),
recovering a rotation vector (axis times angle) from a rotation matrix;
valid below the 180 degree singularity. -/
def LogC90 (R : Matrix3) : Vec3 :=
  let t := Real.arccos ((R 0 0 + R 1 1 + R 2 2 - 1) / 2)
  (t / (2 * Real.sin t)) • ![R 2 1 - R 1 2, R 0 2 - R 2 0, R 1 0 - R 0 1]

/-- First standard basis vector (the local axial direction). -/
def e1v : Vec3 := ![1, 0, 0]

/-- Modelled from the spec: normalized quaternion square root,
`sqrt q = (1 + q) / |1 + q|`, used to build the mid (mean) rotation. -/
def qsqrt (q : Quaternion ℝ) : Quaternion ℝ :=
  (Real.sqrt (Quaternion.normSq (1 + q)))⁻¹ • (1 + q)

/-- Modelled from the spec: the mean (mid-point) nodal rotation used by the
Crisfield isometry: half of the relative rotation from node I to node J,
composed onto node I's rotation. -/
def crsMean (qI qJ : Quaternion ℝ) : Quaternion ℝ :=
  qsqrt (qJ * star qI) * qI

/-- Modelled from the spec: the minimal rotation carrying unit vector `a`
onto unit vector `b` (Rodrigues form); the identity when `a = b`. -/
def alignMat (a b : Vec3) : Matrix3 :=
  1 + skew3 (cross3 a b)
    + (1 / (1 + dot3 a b)) • (skew3 (cross3 a b) * skew3 (cross3 a b))

/-- Modelled from the spec: `CrisfieldIsometry::getRotation`, the mean
rotation triad `Rbar`: the mean of the two nodal rotations, corrected by the
minimal rotation that aligns its first axis with the deformed chord
direction. The isometry state is a pure function of the two nodal rotations
and the chord, per the spec. Nodal rotations are passed as quaternions; the
source passes their rotation matrices, which carry the same information. -/
def crsRotation (qI qJ : Quaternion ℝ) (dx : Vec3) : Matrix3 :=
  let qm := crsMean qI qJ
  let r1 := (MatrixFromVersor qm).mulVec e1v
  alignMat r1 ((norm3 dx)⁻¹ • dx) * MatrixFromVersor qm

/-- An element node as seen by the transform: reference coordinates and the
6-component displacement vectors exposed by `getTrialDisp` / `getDisp`. -/
structure Node where
  crds : Vec3
  trialDisp : Fin 6 → ℝ
  disp : Fin 6 → ℝ

/-- The mutable state of a `SouzaFrameTransf` instance (`nn = 2`,
`ndf = 6`): reference chord `dX`, initial and deformed lengths `L`, `Ln`,
initial triad `R0`, trial and committed nodal rotations `Q_pres`, `Q_past`,
last-seen rotational displacements `alphaI`, `alphaJ`, local deformation
vectors `ul`, `ulpr`, `ulcommit`, nodal rotation logarithms `vr`, and the
transformation tangent `T`. -/
structure SState where
  dX : Vec3
  L : ℝ
  Ln : ℝ
  R0 : Matrix3
  Q_pres : Fin 2 → Quaternion ℝ
  Q_past : Fin 2 → Quaternion ℝ
  alphaI : Vec3
  alphaJ : Vec3
  ul : Fin 12 → ℝ
  ulpr : Fin 12 → ℝ
  ulcommit : Fin 12 → ℝ
  vr : Fin 2 → Vec3
  T : Matrix (Fin 12) (Fin 12) ℝ

/-- Translational part of a 6-component nodal displacement. -/
def transOf (d : Fin 6 → ℝ) : Vec3 := fun k => d ⟨k.1, by omega⟩

/-- Rotational part of a 6-component nodal displacement
(components 3, 4, 5, as read by the source's `dispI(k+3)`). -/
def rotOf (d : Fin 6 → ℝ) : Vec3 := fun k => d ⟨k.1 + 3, by omega⟩

/-- The deformed chord `dx = dX + (dispJ - dispI)` recomputed by
`update()` from the trial displacements (source lines 290-294). -/
def chord (s : SState) (dI dJ : Fin 6 → ℝ) : Vec3 :=
  fun k => s.dX k + (transOf dJ k - transOf dI k)

/-- One nodal rotation update step of `update()` (source lines 318-321):
left-compose the incremental rotation onto the current quaternion, only if
the increment has non-zero norm. -/
def updateQ (q : Quaternion ℝ) (dA : Vec3) : Quaternion ℝ :=
  if norm3 dA ≠ 0 then Versor.from_vector dA * q else q

/-- Assembly of the local deformation vector by `update()` (source lines
340-353): rotation logarithms in components 3-5 and 9-11, axial components
`ul(inx) = 0` at index 0 and `ul(jnx) = Ln - L` at index 6 (block layout per
`getNodePosition`: node translations at `tag*ndf`), all other components
keeping their previous values. -/
def buildUl (prev : Fin 12 → ℝ) (v0 v1 : Vec3) (ax : ℝ) : Fin 12 → ℝ :=
  fun i =>
    if i.1 = 0 then 0
    else if i.1 = 6 then ax
    else if h3 : 3 ≤ i.1 ∧ i.1 < 6 then v0 ⟨i.1 - 3, by omega⟩
    else if h9 : 9 ≤ i.1 then v1 ⟨i.1 - 9, by have := i.2; omega⟩
    else prev i

/-- `SouzaFrameTransf::update` (source lines 276-359), reading the nodes'
current trial displacements `dI`, `dJ`. Returns the C status code and the
new state. On the degenerate-geometry failure (`Ln == 0`) the member `Ln`
has already been assigned and the function returns -2 before touching any
other member. The tangent recomputation `T = crs.compute_tangent(ul)`
(a derived quantity whose formula the spec does not give) is not modelled;
no claim refers to the value computed for it. -/
def update (s : SState) (dI dJ : Fin 6 → ℝ) : Int × SState :=
  let dx := chord s dI dJ
  let ln := norm3 dx
  if ln = 0 then (-2, { s with Ln := ln })
  else
    let dAI : Vec3 := fun k => rotOf dI k - s.alphaI k
    let dAJ : Vec3 := fun k => rotOf dJ k - s.alphaJ k
    let Q0 := updateQ (s.Q_pres 0) dAI
    let Q1 := updateQ (s.Q_pres 1) dAJ
    let e := crsRotation Q0 Q1 dx
    let v0 := LogC90 (e.transpose * MatrixFromVersor Q0)
    let v1 := LogC90 (e.transpose * MatrixFromVersor Q1)
    (0, { s with
            Ln := ln
            alphaI := rotOf dI
            alphaJ := rotOf dJ
            Q_pres := ![Q0, Q1]
            ulpr := s.ul
            ul := buildUl s.ul v0 v1 (ln - s.L)
            vr := ![v0, v1] })

/-- `SouzaFrameTransf::commit` (source lines 138-146). -/
def commit (s : SState) : Int × SState :=
  (0, { s with ulcommit := s.ul, Q_past := s.Q_pres })

/-- `SouzaFrameTransf::revertToLastCommit` (source lines 149-169): reset the
`alphaI`/`alphaJ` baselines from the nodes' current trial displacements,
restore the committed `ul` and `Q_past`, then re-run `update()`, discarding
its return value, and return 0. -/
def revertToLastCommit (s : SState) (dI dJ : Fin 6 → ℝ) : Int × SState :=
  let s1 := { s with
                alphaI := rotOf dI
                alphaJ := rotOf dJ
                ul := s.ulcommit
                Q_pres := s.Q_past }
  (0, (update s1 dI dJ).2)

/-- `SouzaFrameTransf::revertToStart` (source lines 121-135): zero `ul`,
reset both nodal quaternions from `R0`, zero the incremental trackers, then
re-run `update()`, discarding its return value, and return 0. -/
def revertToStart (s : SState) (dI dJ : Fin 6 → ℝ) : Int × SState :=
  let s1 := { s with
                ul := fun _ => 0
                Q_pres := fun _ => Versor.from_matrix s.R0
                alphaI := fun _ => 0
                alphaJ := fun _ => 0 }
  (0, (update s1 dI dJ).2)

/-- Matrix with the three given columns (the local triad `R0`, whose
columns are the local axes per `getLocalAxes`). -/
def colMatrix (a b c : Vec3) : Matrix3 :=
  Matrix.of fun i j => ![a, b, c] j i

/-- Modelled from the spec: `FrameTransform::Orient` builds the initial
triad `R0` with first axis along the chord and the remaining axes from the
orientation vector `vz` (local xz-plane convention); fails when `vz` is
parallel to the chord. -/
def Orient (dx vz : Vec3) : Option Matrix3 :=
  let e1 := (norm3 dx)⁻¹ • dx
  let c := cross3 vz e1
  if norm3 c = 0 then none
  else
    let e2 := (norm3 c)⁻¹ • c
    some (colMatrix e1 e2 (cross3 e1 e2))

/-- `SouzaFrameTransf::initialize` (source lines 172-244): check the node
references for null, compute the reference chord `dX` and length `L`
(returning -1 resp. -2 on failure), orient the initial triad, seed both
nodal quaternions from `R0`, zero the local deformation state, and commit.
The capture of pre-existing nodal displacements into
`nodeIInitialDisp`/`nodeJInitialDisp` (source lines 190-209) allocates
state never read by the operations under verification and is not modelled.
The error code forwarded from a failing `Orient` is modelled as -3; its
source is not part of the snapshot. (The source's name `initialize` is a
reserved word in Lean, hence the suffix.) -/
def initializeTransf (nodes : Fin 2 → Option Node) (vz : Vec3) (s : SState) :
    Int × SState :=
  match nodes 0, nodes 1 with
  | none, _ => (-1, s)
  | some _, none => (-1, s)
  | some nI, some nJ =>
    let dX : Vec3 := fun k => nJ.crds k - nI.crds k
    let L := norm3 dX
    if L = 0 then (-2, { s with dX := dX })
    else
      match Orient dX vz with
      | none => (-3, { s with dX := dX, L := L })
      | some R0 =>
        (0, (commit { s with
                        dX := dX
                        L := L
                        R0 := R0
                        Q_pres := fun _ => Versor.from_matrix R0
                        ul := fun _ => 0
                        ulpr := fun _ => 0
                        vr := fun _ => fun _ => 0 }).2)

/-- The state produced by the constructor
`SouzaFrameTransf(tag, vz, offset)` (source lines 50-70): `L` and `Ln` are
initialized to 0 and `alphaI`, `alphaJ` are explicitly zeroed; the
remaining members are left at their default (zero / identity) values. -/
def ctorState : SState :=
  { dX := fun _ => 0
    L := 0
    Ln := 0
    R0 := 1
    Q_pres := fun _ => 1
    Q_past := fun _ => 1
    alphaI := fun _ => 0
    alphaJ := fun _ => 0
    ul := fun _ => 0
    ulpr := fun _ => 0
    ulcommit := fun _ => 0
    vr := fun _ => fun _ => 0
    T := 0 }

/-- `SouzaFrameTransf::getCopy` (source lines 97-118): construct a fresh
instance with the same tag, `vz` and offsets, then copy exactly the fields
`xAxis`, `L`, `Ln`, `R0`, `Q_pres`, `Q_past`, `ul` and `ulcommit` (and the
node references). The members `alphaI`, `alphaJ`, `dX`, `ulpr`, `vr` and
`T` are not copied. -/
def getCopy (s : SState) : SState :=
  { ctorState with
      L := s.L
      Ln := s.Ln
      R0 := s.R0
      Q_pres := s.Q_pres
      Q_past := s.Q_past
      ul := s.ul
      ulcommit := s.ulcommit }

/-- The flat index `a*6 + i` of component `i` of node block `a` in a
12-component local or global vector. -/
def idx2 (a : Fin 2) (i : Fin 6) : Fin 12 :=
  ⟨a.1 * 6 + i.1, by have := a.2; have := i.2; omega⟩

/-- `SouzaFrameTransf::push(VectorND&, Operation)` (source lines 362-384):
the local force vector `pl` is mapped to the global vector
`pg[b*6+j] = sum over a, i of T(a*6+i, b*6+j) * pl[a*6+i]`, written with
the source's block/accumulation structure. The transform state is returned
unchanged (the C++ code writes the result into its argument and touches no
member). -/
def push (s : SState) (pl : Fin 12 → ℝ) : SState × (Fin 12 → ℝ) :=
  (s, fun m => ∑ a : Fin 2, ∑ i : Fin 6, s.T (idx2 a i) m * pl (idx2 a i))

/-- `SouzaFrameTransf::getLengthGrad` (source lines 460-476): from the two
nodes' coordinate-sensitivity indices, form the indicator vectors and
return `1/L * dX . (dxj - dxi)`. The boolean records whether a diagnostic
was emitted on `opserr` (this method emits none). -/
def getLengthGrad (s : SState) (di dj : ℕ) : Bool × ℝ :=
  let dxi : Vec3 := fun k => if di ≠ 0 ∧ k.1 = di - 1 then 1 else 0
  let dxj : Vec3 := fun k => if dj ≠ 0 ∧ k.1 = dj - 1 then 1 else 0
  (false, 1 / s.L * dot3 s.dX (fun k => dxj k - dxi k))

/-- `SouzaFrameTransf::getBasicDisplTotalGrad` (source lines 478-487):
emits a warning diagnostic and returns a dummy 1-component vector. -/
def getBasicDisplTotalGrad (_s : SState) (_gradNumber : ℤ) :
    Bool × (Fin 1 → ℝ) :=
  (true, fun _ => 0)

/-- `SouzaFrameTransf::getBasicDisplFixedGrad` (source lines 489-498):
emits an error diagnostic and returns a dummy 1-component vector. -/
def getBasicDisplFixedGrad (_s : SState) : Bool × (Fin 1 → ℝ) :=
  (true, fun _ => 0)

/-- `SouzaFrameTransf::getGlobalResistingForceShapeSensitivity` (source
lines 501-512): emits an error diagnostic and returns a dummy 1-component
vector. -/
def getGlobalResistingForceShapeSensitivity (_s : SState)
    (_pb _p0 : Fin 12 → ℝ) (_gradNumber : ℤ) : Bool × (Fin 1 → ℝ) :=
  (true, fun _ => 0)

/-- Index of the node-I axial component of `ul` (`inx`). -/
def inx : Fin 12 := ⟨0, by omega⟩

/-- Index of the node-J axial component of `ul` (`jnx`). -/
def jnx : Fin 12 := ⟨6, by omega⟩

/-- First index of the node-I rotation block of `ul` (`imx`). -/
def imx : Fin 12 := ⟨3, by omega⟩

/-- First index of the node-J rotation block of `ul` (`jmx`). -/
def jmx : Fin 12 := ⟨9, by omega⟩

/-- The all-zero 6-component nodal displacement. -/
def dZero : Fin 6 → ℝ := fun _ => 0

/-- A freshly initialized unit-length element along the global x-axis
(nodes at the origin and at `(1,0,0)`, identity triad). -/
def sW : SState :=
  { ctorState with dX := e1v, L := 1 }

/-- A transform state whose incremental rotation tracker `alphaI` is
non-zero (as left behind by any `update` with a non-zero nodal rotation). -/
def sAlpha : SState := { ctorState with alphaI := fun _ => 1 }

/-- A transform state of initial length 2 along the global x-axis, used to
evaluate `getLengthGrad`. -/
def sGrad : SState :=
  { ctorState with L := 2, dX := fun k => if k.1 = 0 then 2 else 0 }

/-- A node sitting at the origin with zero displacements. -/
def nodeO : Node := { crds := fun _ => 0, trialDisp := fun _ => 0, disp := fun _ => 0 }

end

theorem sq3_nonneg (v : Vec3) : 0 ≤ sq3 v := by
  unfold sq3; positivity

theorem norm3_eq_zero {v : Vec3} : norm3 v = 0 ↔ v = 0 := by
  unfold norm3
  rw [Real.sqrt_eq_zero (sq3_nonneg v)]
  constructor
  · intro h
    have h' : v 0 ^ 2 + v 1 ^ 2 + v 2 ^ 2 = 0 := by simpa [sq3] using h
    have e0 : v 0 = 0 := by
      have h2 : v 0 ^ 2 = 0 := by nlinarith [sq_nonneg (v 1), sq_nonneg (v 2)]
      exact pow_eq_zero_iff two_ne_zero |>.1 h2
    have e1 : v 1 = 0 := by
      have h2 : v 1 ^ 2 = 0 := by nlinarith [sq_nonneg (v 0), sq_nonneg (v 2)]
      exact pow_eq_zero_iff two_ne_zero |>.1 h2
    have e2 : v 2 = 0 := by
      have h2 : v 2 ^ 2 = 0 := by nlinarith [sq_nonneg (v 0), sq_nonneg (v 1)]
      exact pow_eq_zero_iff two_ne_zero |>.1 h2
    funext k
    fin_cases k <;> simp [e0, e1, e2]
  · intro h
    subst h
    simp [sq3]

theorem norm3_zero : norm3 (fun _ => 0) = 0 := by
  simp [norm3, sq3]

theorem norm3_e1v : norm3 e1v = 1 := by
  simp [norm3, sq3, e1v]

theorem from_vector_zero : Versor.from_vector 0 = 1 := by
  unfold Versor.from_vector
  have h0 : norm3 (0 : Vec3) = 0 := norm3_zero
  ext <;> simp [h0]

theorem updateQ_from_vector (p : Quaternion ℝ) (θ : Vec3) :
    updateQ p θ = Versor.from_vector θ * p := by
  unfold updateQ
  by_cases h : norm3 θ = 0
  · rw [if_neg (by simpa using h), norm3_eq_zero.1 h, from_vector_zero, one_mul]
  · rw [if_pos h]

theorem MV_one : MatrixFromVersor 1 = 1 := by
  ext i j
  fin_cases i <;> fin_cases j <;>
    simp [MatrixFromVersor, Matrix.one_apply, Matrix.vecHead, Matrix.vecTail]

theorem MV_mul (p q : Quaternion ℝ) :
    MatrixFromVersor (p * q) = MatrixFromVersor p * MatrixFromVersor q := by
  ext i j
  fin_cases i <;> fin_cases j <;>
    · simp [MatrixFromVersor, Matrix.mul_apply, Fin.sum_univ_three,
        Matrix.vecHead, Matrix.vecTail, Quaternion.mul_re, Quaternion.mul_imI,
        Quaternion.mul_imJ, Quaternion.mul_imK]
      try ring

theorem MV_star (q : Quaternion ℝ) :
    MatrixFromVersor (star q) = (MatrixFromVersor q).transpose := by
  ext i j
  fin_cases i <;> fin_cases j <;>
    · simp [MatrixFromVersor, Matrix.transpose_apply, Matrix.vecHead,
        Matrix.vecTail]
      try ring

theorem sq3_MV (q : Quaternion ℝ) (v : Vec3) :
    sq3 ((MatrixFromVersor q).mulVec v) = (Quaternion.normSq q) ^ 2 * sq3 v := by
  simp only [sq3, MatrixFromVersor, Matrix.mulVec, Matrix.dotProduct,
    Fin.sum_univ_three, Quaternion.normSq_def', Matrix.of_apply,
    Matrix.cons_val_zero, Matrix.cons_val_one, Matrix.cons_val_two,
    Matrix.head_cons, Matrix.tail_cons]
  ring

theorem norm3_MV {q : Quaternion ℝ} (hq : Quaternion.normSq q = 1) (v : Vec3) :
    norm3 ((MatrixFromVersor q).mulVec v) = norm3 v := by
  unfold norm3
  rw [sq3_MV, hq, one_pow, one_mul]

theorem cross3_self (v : Vec3) : cross3 v v = fun _ => 0 := by
  funext k
  fin_cases k <;> simp [cross3, mul_comm]

theorem skew3_zero : skew3 (fun _ => 0) = 0 := by
  ext i j
  fin_cases i <;> fin_cases j <;>
    simp [skew3, Matrix.vecHead, Matrix.vecTail]

theorem alignMat_self (v : Vec3) : alignMat v v = 1 := by
  unfold alignMat
  rw [cross3_self, skew3_zero]
  simp

theorem qsqrt_one : qsqrt (1 : Quaternion ℝ) = 1 := by
  unfold qsqrt
  have h2 : (1 + 1 : Quaternion ℝ) = ((2 : ℝ) : Quaternion ℝ) := by
    have hc : ((2 : ℝ) : Quaternion ℝ)
        = ((1 : ℝ) : Quaternion ℝ) + ((1 : ℝ) : Quaternion ℝ) := by
      rw [← Quaternion.coe_add]; norm_num
    rw [hc, Quaternion.coe_one]
  rw [h2, Quaternion.normSq_coe,
    show Real.sqrt ((2 : ℝ) ^ 2) = 2 from Real.sqrt_sq (by norm_num),
    Quaternion.smul_coe]
  norm_num

theorem crsMean_self {p : Quaternion ℝ} (hp : Quaternion.normSq p = 1) :
    crsMean p p = p := by
  unfold crsMean
  rw [Quaternion.self_mul_star, hp, Quaternion.coe_one, qsqrt_one, one_mul]

theorem crsRotation_self {p : Quaternion ℝ} {dx : Vec3}
    (hp : Quaternion.normSq p = 1)
    (halign : (MatrixFromVersor p).mulVec e1v = (norm3 dx)⁻¹ • dx) :
    crsRotation p p dx = MatrixFromVersor p := by
  simp only [crsRotation]
  rw [crsMean_self hp, halign, alignMat_self, one_mul]

theorem LogC90_one : LogC90 (1 : Matrix3) = fun _ => 0 := by
  funext k
  unfold LogC90
  fin_cases k <;> simp [Matrix.one_apply]

theorem buildUl_buildUl (p : Fin 12 → ℝ) (v0 v1 v0a v1a : Vec3) (ax axa : ℝ) :
    buildUl (buildUl p v0 v1 ax) v0a v1a axa = buildUl p v0a v1a axa := by
  funext i
  unfold buildUl
  split_ifs <;> rfl

theorem buildUl_zero :
    buildUl (fun _ => 0) (fun _ => 0) (fun _ => 0) 0 = fun _ => 0 := by
  funext i
  unfold buildUl
  split_ifs <;> rfl

theorem chord_eq (s : SState) (dI dJ : Fin 6 → ℝ) :
    chord s dI dJ = fun k => s.dX k + (transOf dJ k - transOf dI k) := rfl

theorem chord_sW : chord sW dZero dZero = e1v := by
  funext k
  simp [chord, transOf, dZero, sW, ctorState]

theorem norm3_chord_sW : norm3 (chord sW dZero dZero) ≠ 0 := by
  rw [chord_sW, norm3_e1v]; norm_num

theorem update_sW_ok : (update sW dZero dZero).1 = 0 := by
  have h := norm3_chord_sW
  simp [update, h]

/-- Claim C3: `update()` fails (with the non-zero status -2, the
degenerate-geometry error, the only failure it can return) exactly when the
recomputed deformed length `Ln` is zero; `update` never writes the
committed state `ulcommit`, `Q_past`, so on failure the previously
committed state is unchanged. -/
theorem update_fails_iff_zero_length (s : SState) (dI dJ : Fin 6 → ℝ) :
    ((update s dI dJ).1 ≠ 0 ↔ (update s dI dJ).2.Ln = 0)
    ∧ ((update s dI dJ).1 = 0 ∨ (update s dI dJ).1 = -2)
    ∧ (update s dI dJ).2.ulcommit = s.ulcommit
    ∧ (update s dI dJ).2.Q_past = s.Q_past := by
  by_cases h : norm3 (chord s dI dJ) = 0 <;>
    simp [update, h]

/-- Witness for C3 at a concrete state: the unit-length element with zero
trial displacements. -/
theorem update_fails_iff_zero_length_witness :
    ((update sW dZero dZero).1 ≠ 0 ↔ (update sW dZero dZero).2.Ln = 0)
    ∧ ((update sW dZero dZero).1 = 0 ∨ (update sW dZero dZero).1 = -2)
    ∧ (update sW dZero dZero).2.ulcommit = sW.ulcommit
    ∧ (update sW dZero dZero).2.Q_past = sW.Q_past :=
  update_fails_iff_zero_length sW dZero dZero

/-- Claim C4: after every successful `update()`, the local axial components
satisfy `ul(inx) = 0` (node-I block) and `ul(jnx) = Ln - L` (node-J
block). -/
theorem update_axial_components (s : SState) (dI dJ : Fin 6 → ℝ)
    (h : (update s dI dJ).1 = 0) :
    (update s dI dJ).2.ul inx = 0
    ∧ (update s dI dJ).2.ul jnx = (update s dI dJ).2.Ln - s.L := by
  by_cases hn : norm3 (chord s dI dJ) = 0
  · simp [update, hn] at h
  · simp only [update, if_neg hn]
    exact ⟨rfl, rfl⟩

/-- Witness for C4: a successful update of the unit-length element. -/
theorem update_axial_components_witness :
    (update sW dZero dZero).1 = 0
    ∧ ((update sW dZero dZero).2.ul inx = 0
       ∧ (update sW dZero dZero).2.ul jnx
           = (update sW dZero dZero).2.Ln - sW.L) :=
  ⟨update_sW_ok, update_axial_components sW dZero dZero update_sW_ok⟩

/-- Claim C10: `revertToLastCommit()` and `revertToStart()` always return 0
for every state and every nodal trial displacement; each discards the
status of the internal `update()` it performs, so a degenerate-geometry
failure there is swallowed. -/
theorem revert_swallows_update_status (s : SState) (dI dJ : Fin 6 → ℝ) :
    (revertToLastCommit s dI dJ).1 = 0 ∧ (revertToStart s dI dJ).1 = 0 :=
  ⟨rfl, rfl⟩

/-- Claim C2: in every (non-degenerate) `update()` call, each node's
rotation increment is the trial rotational displacement minus the
last-seen `alphaI`/`alphaJ` value (not the committed one), `alphaI`/`alphaJ`
are refreshed to the trial values, and the increment is left-composed onto
`Q_pres[i]` by the Hamilton product (`new = increment * old`) only when the
increment has non-zero norm. -/
theorem update_incremental_rotation (s : SState) (dI dJ : Fin 6 → ℝ)
    (h : norm3 (chord s dI dJ) ≠ 0) :
    (update s dI dJ).2.alphaI = rotOf dI
    ∧ (update s dI dJ).2.alphaJ = rotOf dJ
    ∧ (update s dI dJ).2.Q_pres 0 =
        (if norm3 (fun k => rotOf dI k - s.alphaI k) ≠ 0
         then Versor.from_vector (fun k => rotOf dI k - s.alphaI k)
                * s.Q_pres 0
         else s.Q_pres 0)
    ∧ (update s dI dJ).2.Q_pres 1 =
        (if norm3 (fun k => rotOf dJ k - s.alphaJ k) ≠ 0
         then Versor.from_vector (fun k => rotOf dJ k - s.alphaJ k)
                * s.Q_pres 1
         else s.Q_pres 1) := by
  simp [update, h, updateQ]

/-- Witness for C2: the unit-length element with zero displacements. -/
theorem update_incremental_rotation_witness :
    norm3 (chord sW dZero dZero) ≠ 0
    ∧ ((update sW dZero dZero).2.alphaI = rotOf dZero
       ∧ (update sW dZero dZero).2.alphaJ = rotOf dZero
       ∧ (update sW dZero dZero).2.Q_pres 0 =
           (if norm3 (fun k => rotOf dZero k - sW.alphaI k) ≠ 0
            then Versor.from_vector (fun k => rotOf dZero k - sW.alphaI k)
                   * sW.Q_pres 0
            else sW.Q_pres 0)
       ∧ (update sW dZero dZero).2.Q_pres 1 =
           (if norm3 (fun k => rotOf dZero k - sW.alphaJ k) ≠ 0
            then Versor.from_vector (fun k => rotOf dZero k - sW.alphaJ k)
                   * sW.Q_pres 1
            else sW.Q_pres 1)) :=
  ⟨norm3_chord_sW,
   update_incremental_rotation sW dZero dZero norm3_chord_sW⟩

/-- Claim C6: the force push maps a 12-component local force vector `pl` to
the global vector `T^t * pl`, assembled from two 6-DOF blocks per node, and
leaves the transform state unchanged. -/
theorem push_is_transpose_mulVec (s : SState) (pl : Fin 12 → ℝ) :
    (push s pl).1 = s
    ∧ (push s pl).2 = (s.T).transpose.mulVec pl := by
  refine ⟨rfl, ?_⟩
  funext m
  have hbij : Function.Bijective (fun p : Fin 2 × Fin 6 => idx2 p.1 p.2) := by
    decide
  have hsum : (s.T.transpose.mulVec pl) m = ∑ k : Fin 12, s.T k m * pl k := by
    simp [Matrix.mulVec, Matrix.dotProduct, Matrix.transpose_apply]
  rw [hsum]
  show (∑ a : Fin 2, ∑ i : Fin 6, s.T (idx2 a i) m * pl (idx2 a i))
      = ∑ k : Fin 12, s.T k m * pl k
  rw [← Fintype.sum_prod_type']
  exact Fintype.sum_bijective _ hbij _ _ (fun p => rfl)

/-- Claim C7: `initialize` returns -1 (invalid node) when a node reference
is null and -2 (degenerate geometry) when the reference length is exactly
zero; every failure is a returned status code (the embedded operation is a
total function returning a code, never a thrown exception). -/
theorem initialize_error_codes :
    (∀ (nodes : Fin 2 → Option Node) (vz : Vec3) (s : SState),
        nodes 0 = none ∨ nodes 1 = none →
        (initializeTransf nodes vz s).1 = -1)
    ∧ (∀ (nodes : Fin 2 → Option Node) (vz : Vec3) (s : SState)
        (nI nJ : Node), nodes 0 = some nI → nodes 1 = some nJ →
        norm3 (fun k => nJ.crds k - nI.crds k) = 0 →
        (initializeTransf nodes vz s).1 = -2) := by
  constructor
  · rintro nodes vz s (h | h) <;> cases h0 : nodes 0 <;>
      simp [initializeTransf, h, h0]
  · intro nodes vz s nI nJ h0 h1 hn
    simp [initializeTransf, h0, h1, hn]

/-- Witness for C7: a null node pair, and a pair of coincident nodes. -/
theorem initialize_error_codes_witness :
    (initializeTransf (fun _ => none) e1v ctorState).1 = -1
    ∧ (initializeTransf (fun _ => some nodeO) e1v ctorState).1 = -2 := by
  constructor
  · exact initialize_error_codes.1 (fun _ => none) e1v ctorState (Or.inl rfl)
  · refine initialize_error_codes.2 (fun _ => some nodeO) e1v ctorState
      nodeO nodeO rfl rfl ?_
    simp [nodeO, norm3_zero]

/-- Counterexample to claim C8 as stated: the copy's incremental rotation
tracker `alphaI` does not equal the original's, because the copy
constructor zeroes it and `getCopy` never copies it. -/
theorem getCopy_not_deep_counterexample :
    (getCopy sAlpha).alphaI ≠ sAlpha.alphaI := by
  intro h
  have h0 := congrFun h 0
  simp [getCopy, ctorState, sAlpha] at h0

/-- Claim C8 as amended: `getCopy` copies exactly `L`, `Ln`, `R0`,
`Q_pres`, `Q_past`, `ul` and `ulcommit`; the trackers `alphaI`, `alphaJ`
are reset to zero by the constructor and the reference chord `dX` (as well
as `ulpr`, `vr` and `T`) is left at its constructor default instead of
being copied. -/
theorem getCopy_copied_fields (s : SState) :
    (getCopy s).L = s.L ∧ (getCopy s).Ln = s.Ln ∧ (getCopy s).R0 = s.R0
    ∧ (getCopy s).Q_pres = s.Q_pres ∧ (getCopy s).Q_past = s.Q_past
    ∧ (getCopy s).ul = s.ul ∧ (getCopy s).ulcommit = s.ulcommit
    ∧ (getCopy s).alphaI = (fun _ => 0) ∧ (getCopy s).alphaJ = (fun _ => 0)
    ∧ (getCopy s).dX = (fun _ => 0) ∧ (getCopy s).ulpr = (fun _ => 0)
    ∧ (getCopy s).vr = (fun _ => fun _ => 0) ∧ (getCopy s).T = 0 :=
  ⟨rfl, rfl, rfl, rfl, rfl, rfl, rfl, rfl, rfl, rfl, rfl, rfl, rfl⟩

/-- Counterexample to claim C9 as stated: `getLengthGrad` is a
gradient/sensitivity method that is functionally implemented: it emits no
diagnostic and returns the computed directional length derivative (here 1),
not a degenerate result. -/
theorem getLengthGrad_implemented_counterexample :
    (getLengthGrad sGrad 0 1).1 = false ∧ (getLengthGrad sGrad 0 1).2 = 1 := by
  constructor
  · rfl
  · simp [getLengthGrad, sGrad, ctorState, dot3]

/-- Claim C9 as amended: the three sensitivity methods
`getBasicDisplTotalGrad`, `getBasicDisplFixedGrad` and
`getGlobalResistingForceShapeSensitivity` are stubs that always emit a
diagnostic and return a dummy 1-component vector, but `getLengthGrad` is
functionally implemented and emits no diagnostic. -/
theorem sensitivity_stub_methods (s : SState) (di dj : ℕ) (g : ℤ)
    (pb p0 : Fin 12 → ℝ) :
    (getBasicDisplTotalGrad s g).1 = true
    ∧ (getBasicDisplTotalGrad s g).2 = (fun _ => 0)
    ∧ (getBasicDisplFixedGrad s).1 = true
    ∧ (getBasicDisplFixedGrad s).2 = (fun _ => 0)
    ∧ (getGlobalResistingForceShapeSensitivity s pb p0 g).1 = true
    ∧ (getGlobalResistingForceShapeSensitivity s pb p0 g).2 = (fun _ => 0)
    ∧ (getLengthGrad s di dj).1 = false :=
  ⟨rfl, rfl, rfl, rfl, rfl, rfl, rfl⟩

/-- Claim C5: when the nodal trial displacements are unchanged since the
last successful `update()`, the sequence `commit(); revertToLastCommit()`
leaves `ul` and `Q_pres` unchanged: the restore reinstates the values just
committed and the re-synchronizing `update()` recomputes them identically
(the rotation increments are zero, so the quaternions are not touched). -/
theorem commit_revert_preserves (s : SState) (dI dJ : Fin 6 → ℝ)
    (h : (update s dI dJ).1 = 0) :
    (revertToLastCommit (commit (update s dI dJ).2).2 dI dJ).2.ul
        = (update s dI dJ).2.ul
    ∧ (revertToLastCommit (commit (update s dI dJ).2).2 dI dJ).2.Q_pres
        = (update s dI dJ).2.Q_pres := by
  have hn : ¬ norm3 (chord s dI dJ) = 0 := by
    intro h0; simp [update, h0] at h
  have hn' : ¬ norm3 (fun k => s.dX k + (transOf dJ k - transOf dI k)) = 0 := by
    simpa [chord] using hn
  constructor <;>
    simp [update, commit, revertToLastCommit, chord_eq, updateQ, hn',
      norm3_zero, buildUl_buildUl, sub_self]

/-- Witness for C5: the unit-length element with zero displacements. -/
theorem commit_revert_preserves_witness :
    (update sW dZero dZero).1 = 0
    ∧ ((revertToLastCommit (commit (update sW dZero dZero).2).2
          dZero dZero).2.ul = (update sW dZero dZero).2.ul
       ∧ (revertToLastCommit (commit (update sW dZero dZero).2).2
            dZero dZero).2.Q_pres = (update sW dZero dZero).2.Q_pres) :=
  ⟨update_sW_ok, commit_revert_preserves sW dZero dZero update_sW_ok⟩

/-- Claim C1: rigid-body invariance. For a freshly initialized (undeformed)
state, applying to both endpoints the same rigid-body motion, a rotation
with rotation vector `θ` (whose versor is a unit quaternion) plus an
arbitrary common translation, means the trial rotational displacements of
both nodes equal `θ` and the difference of the trial translations equals
`(R - I) dX`. After `update()` the local deformation vector `ul` is the
zero vector and the deformed length `Ln` equals the initial length `L`. -/
theorem update_rigid_body_invariance
    (s : SState) (dI dJ : Fin 6 → ℝ) (θ : Vec3)
    (hA : s.alphaI = fun _ => 0) (hB : s.alphaJ = fun _ => 0)
    (hQ : s.Q_pres 1 = s.Q_pres 0)
    (hQunit : Quaternion.normSq (s.Q_pres 0) = 1)
    (hvunit : Quaternion.normSq (Versor.from_vector θ) = 1)
    (hL : norm3 s.dX = s.L)
    (hL0 : s.L ≠ 0)
    (hcol : (MatrixFromVersor (s.Q_pres 0)).mulVec e1v = s.L⁻¹ • s.dX)
    (hul : s.ul = fun _ => 0)
    (hrotI : rotOf dI = θ) (hrotJ : rotOf dJ = θ)
    (hrigid : ∀ k, transOf dJ k - transOf dI k
        = (MatrixFromVersor (Versor.from_vector θ)).mulVec s.dX k - s.dX k) :
    (update s dI dJ).1 = 0
    ∧ (update s dI dJ).2.ul = (fun _ => 0)
    ∧ (update s dI dJ).2.Ln = s.L := by
  set q := Versor.from_vector θ with hq
  have hchord : chord s dI dJ = (MatrixFromVersor q).mulVec s.dX := by
    funext k
    rw [chord_eq]
    show s.dX k + (transOf dJ k - transOf dI k) = _
    rw [hrigid k]
    ring
  have hLn : norm3 (chord s dI dJ) = s.L := by
    rw [hchord, norm3_MV hvunit, hL]
  have hn : ¬ norm3 (chord s dI dJ) = 0 := by rw [hLn]; exact hL0
  have hQI : updateQ (s.Q_pres 0) (fun k => rotOf dI k - s.alphaI k)
      = q * s.Q_pres 0 := by
    have hθ : (fun k => rotOf dI k - s.alphaI k) = θ := by
      funext k; rw [hrotI, hA]; simp
    rw [hθ, updateQ_from_vector]
  have hQJ : updateQ (s.Q_pres 1) (fun k => rotOf dJ k - s.alphaJ k)
      = q * s.Q_pres 0 := by
    have hθ : (fun k => rotOf dJ k - s.alphaJ k) = θ := by
      funext k; rw [hrotJ, hB]; simp
    rw [hθ, updateQ_from_vector, hQ]
  have hQQunit : Quaternion.normSq (q * s.Q_pres 0) = 1 := by
    rw [map_mul, hvunit, hQunit, one_mul]
  have halign : (MatrixFromVersor (q * s.Q_pres 0)).mulVec e1v
      = (norm3 (chord s dI dJ))⁻¹ • chord s dI dJ := by
    rw [hLn, hchord, MV_mul, ← Matrix.mulVec_mulVec, hcol, Matrix.mulVec_smul]
  have he : crsRotation (q * s.Q_pres 0) (q * s.Q_pres 0) (chord s dI dJ)
      = MatrixFromVersor (q * s.Q_pres 0) :=
    crsRotation_self hQQunit halign
  have hstar : star (q * s.Q_pres 0) * (q * s.Q_pres 0) = 1 := by
    rw [Quaternion.star_mul_self, hQQunit, Quaternion.coe_one]
  have hlog : LogC90 ((MatrixFromVersor (q * s.Q_pres 0)).transpose
      * MatrixFromVersor (q * s.Q_pres 0)) = fun _ => 0 := by
    rw [← MV_star, ← MV_mul, hstar, MV_one, LogC90_one]
  refine ⟨?_, ?_, ?_⟩ <;>
    simp [update, hn, hL0, hQI, hQJ, he, hlog, hLn, hul, buildUl_zero]

/-- Witness for C1: the unit-length element along the x-axis with the
identity rigid motion (zero rotation vector, zero translation). -/
theorem update_rigid_body_invariance_witness :
    (update sW dZero dZero).1 = 0
    ∧ (update sW dZero dZero).2.ul = (fun _ => 0)
    ∧ (update sW dZero dZero).2.Ln = sW.L := by
  refine update_rigid_body_invariance sW dZero dZero 0 rfl rfl rfl ?_ ?_ ?_
    ?_ ?_ rfl ?_ ?_ ?_
  · show Quaternion.normSq 1 = 1
    exact map_one _
  · rw [from_vector_zero]; exact map_one _
  · exact norm3_e1v
  · exact one_ne_zero
  · show (MatrixFromVersor 1).mulVec e1v = (1 : ℝ)⁻¹ • e1v
    rw [MV_one, Matrix.one_mulVec, inv_one, one_smul]
  · show rotOf dZero = 0
    funext k; rfl
  · show rotOf dZero = 0
    funext k; rfl
  · intro k
    rw [from_vector_zero, MV_one, Matrix.one_mulVec]
    simp [transOf, dZero]

end OpenSees
